import Mathlib

/-!
# Verification of the midday `@midday/db` core

A shallow embedding of the data model and operations of the `@midday/db`
package (Cloudflare D1 / SQLite schema plus its utility modules), together
with theorems settling the specification claims about it.

The repository's source under `src/packages/db` consists of:

* `src/schema.ts` — the D1/SQLite table definitions (columns, storage
  classes, unique indexes) and the closed enum value lists;
* `src/utils/currency.ts` — the supported-currency list and
  `isSupportedCurrency`;
* `src/schema-d1.ts` — the tax helpers `calculateTax` and
  `calculateAmountWithTax`.

The operational core (transaction ingestion, the inbox reconciliation
engine, invoice issuance) is described by the specification but is not
present in the source tree; those operations are modelled from the
specification text and each such definition carries a doc comment saying
so.  Everything else is translated directly from the TypeScript source.
-/

/- ============================================================ -/
/- Schema embedding (from src/packages/db/src/schema.ts)        -/
/- ============================================================ -/

/-- SQLite storage classes used by the D1 schema.  The drizzle helpers of
the source map `timestamp`- and `boolean`-mode columns to INTEGER storage
and `json`-mode columns to TEXT storage, so every column of the schema has
one of these three storage classes. -/
inductive ColumnType
  | text
  | integer
  | real
  deriving DecidableEq, Repr

/-- A column of a D1 table: its SQL name and its storage class. -/
structure Column where
  name : String
  ctype : ColumnType
  deriving DecidableEq, Repr

/-- A D1 table: its SQL name, its columns, and its unique indexes (each
unique index is the list of SQL column names it covers). -/
structure Table where
  name : String
  columns : List Column
  uniqueIndexes : List (List String)
  deriving DecidableEq, Repr

/-- The storage class of a named column of a table, when the column exists. -/
def Table.columnType (t : Table) (c : String) : Option ColumnType :=
  (t.columns.find? (fun col => col.name == c)).map (fun col => col.ctype)

/-- The `transactions` table, from `schema.ts` lines 231-268.  `timestamp`
and `boolean` columns are INTEGER storage; `amount`, `balance`,
`base_amount`, `tax_amount` and `tax_rate` are declared with `real(...)`.
Its sole unique index is `transactions_internal_id_key` on `internal_id`. -/
def transactionsTable : Table :=
  { name := "transactions"
    columns :=
      [⟨"id", ColumnType.text⟩, ⟨"created_at", ColumnType.integer⟩,
       ⟨"date", ColumnType.text⟩, ⟨"name", ColumnType.text⟩,
       ⟨"method", ColumnType.text⟩, ⟨"amount", ColumnType.real⟩,
       ⟨"currency", ColumnType.text⟩, ⟨"team_id", ColumnType.text⟩,
       ⟨"assigned_id", ColumnType.text⟩, ⟨"note", ColumnType.text⟩,
       ⟨"bank_account_id", ColumnType.text⟩, ⟨"internal_id", ColumnType.text⟩,
       ⟨"status", ColumnType.text⟩, ⟨"balance", ColumnType.real⟩,
       ⟨"manual", ColumnType.integer⟩, ⟨"notified", ColumnType.integer⟩,
       ⟨"internal", ColumnType.integer⟩, ⟨"description", ColumnType.text⟩,
       ⟨"category_slug", ColumnType.text⟩, ⟨"base_amount", ColumnType.real⟩,
       ⟨"counterparty_name", ColumnType.text⟩, ⟨"base_currency", ColumnType.text⟩,
       ⟨"tax_amount", ColumnType.real⟩, ⟨"tax_rate", ColumnType.real⟩,
       ⟨"tax_type", ColumnType.text⟩, ⟨"recurring", ColumnType.integer⟩,
       ⟨"frequency", ColumnType.text⟩, ⟨"merchant_name", ColumnType.text⟩,
       ⟨"enrichment_completed", ColumnType.integer⟩]
    uniqueIndexes := [["internal_id"]] }

/-- The `invoices` table, from `schema.ts` lines 466-506.  Its unique
indexes are `invoices_invoice_number_key` on `invoice_number` and
`invoices_token_key` on `token`. -/
def invoicesTable : Table :=
  { name := "invoices"
    columns :=
      [⟨"id", ColumnType.text⟩, ⟨"created_at", ColumnType.integer⟩,
       ⟨"updated_at", ColumnType.integer⟩, ⟨"team_id", ColumnType.text⟩,
       ⟨"customer_id", ColumnType.text⟩, ⟨"invoice_number", ColumnType.text⟩,
       ⟨"status", ColumnType.text⟩, ⟨"template", ColumnType.text⟩,
       ⟨"currency", ColumnType.text⟩, ⟨"amount", ColumnType.real⟩,
       ⟨"vat", ColumnType.real⟩, ⟨"tax", ColumnType.real⟩,
       ⟨"due_date", ColumnType.text⟩, ⟨"issue_date", ColumnType.text⟩,
       ⟨"paid", ColumnType.integer⟩, ⟨"paid_at", ColumnType.integer⟩,
       ⟨"note_details", ColumnType.text⟩, ⟨"from_details", ColumnType.text⟩,
       ⟨"customer_details", ColumnType.text⟩, ⟨"payment_details", ColumnType.text⟩,
       ⟨"token", ColumnType.text⟩, ⟨"delivery_type", ColumnType.text⟩,
       ⟨"schedule_date", ColumnType.integer⟩, ⟨"reminder_sent", ColumnType.integer⟩,
       ⟨"viewed_at", ColumnType.integer⟩, ⟨"internal_note", ColumnType.text⟩,
       ⟨"line_items", ColumnType.text⟩, ⟨"discount_amount", ColumnType.real⟩,
       ⟨"tax_amount", ColumnType.real⟩, ⟨"top_amount", ColumnType.real⟩,
       ⟨"bottom_amount", ColumnType.real⟩, ⟨"subtotal", ColumnType.real⟩,
       ⟨"invoice_url", ColumnType.text⟩]
    uniqueIndexes := [["invoice_number"], ["token"]] }

/-- The `transaction_match_suggestions` table, from `schema.ts` lines
322-331.  It carries only plain (non-unique) indexes. -/
def transactionMatchSuggestionsTable : Table :=
  { name := "transaction_match_suggestions"
    columns :=
      [⟨"id", ColumnType.text⟩, ⟨"transaction_id", ColumnType.text⟩,
       ⟨"inbox_id", ColumnType.text⟩, ⟨"score", ColumnType.real⟩,
       ⟨"created_at", ColumnType.integer⟩]
    uniqueIndexes := [] }

/-- The `inbox` table, from `schema.ts` lines 622-650.  Its sole unique
index is `inbox_reference_id_key` on `reference_id`. -/
def inboxTable : Table :=
  { name := "inbox"
    columns :=
      [⟨"id", ColumnType.text⟩, ⟨"created_at", ColumnType.integer⟩,
       ⟨"team_id", ColumnType.text⟩, ⟨"status", ColumnType.text⟩,
       ⟨"type", ColumnType.text⟩, ⟨"amount", ColumnType.real⟩,
       ⟨"currency", ColumnType.text⟩, ⟨"date", ColumnType.text⟩,
       ⟨"name", ColumnType.text⟩, ⟨"website", ColumnType.text⟩,
       ⟨"description", ColumnType.text⟩, ⟨"attachments", ColumnType.text⟩,
       ⟨"metadata", ColumnType.text⟩, ⟨"inbox_account_id", ColumnType.text⟩,
       ⟨"reference_id", ColumnType.text⟩, ⟨"forwarded_to", ColumnType.text⟩,
       ⟨"transaction_id", ColumnType.text⟩, ⟨"read_at", ColumnType.integer⟩,
       ⟨"display_name", ColumnType.text⟩, ⟨"content_type", ColumnType.text⟩,
       ⟨"size", ColumnType.integer⟩]
    uniqueIndexes := [["reference_id"]] }

/-- The invoice status value list `invoiceStatusValues`, verbatim from
`schema.ts` line 58. -/
def invoiceStatusValues : List String :=
  ["draft", "overdue", "paid", "unpaid", "canceled", "scheduled"]

/-- The inbox status value list `inboxStatusValues`, verbatim from
`schema.ts` lines 43-46. -/
def inboxStatusValues : List String :=
  ["processing", "pending", "archived", "new", "analyzing",
   "suggested_match", "no_match", "done", "deleted"]

/- ============================================================ -/
/- Currency utilities (from src/packages/db/src/utils/currency.ts) -/
/- ============================================================ -/

/-- The supported currency codes, verbatim from `currency.ts`. -/
def currencies : List String :=
  ["USD", "EUR", "GBP", "JPY", "AUD", "CAD", "CHF", "CNY", "SEK", "NZD"]

/-- `isSupportedCurrency` from `currency.ts`: membership of the argument in
`currencies` under exact (case-sensitive) string equality, as
`Array.prototype.includes` performs. -/
def isSupportedCurrency (currency : String) : Bool :=
  currencies.contains currency

/- ============================================================ -/
/- JavaScript numbers and the tax utilities                     -/
/- (from src/packages/db/src/schema-d1.ts)                      -/
/- ============================================================ -/

/-- A JavaScript `number` (IEEE-754 binary64): either a finite value or
one of the non-finite values `NaN`, `Infinity`, `-Infinity`.  Finite
values are carried as exact rationals and the two signed zeros are
conflated (they compare equal in JavaScript); every rule involving a
non-finite value in the operations below follows IEEE-754 exactly, while
finite-by-finite arithmetic is idealized as exact — binary64 rounds it in
general — so theorems about finite results are confined to the
rounding-free fragment (multiplying by an exact zero, adding an exact
zero, dividing an exact zero by a nonzero constant), on which binary64 is
itself exact. -/
inductive JsNumber
  | finite (val : ℚ)
  | nan
  | posInf
  | negInf
  deriving DecidableEq, Repr

/-- `Number.isFinite`: only the finite alternative is finite. -/
def JsNumber.isFinite : JsNumber → Bool
  | JsNumber.finite _ => true
  | _ => false

/-- JavaScript (IEEE-754) addition on `JsNumber`: `NaN` propagates and
opposite infinities give `NaN`; an infinity absorbs any finite addend. -/
def jsAdd : JsNumber → JsNumber → JsNumber
  | JsNumber.nan, _ => JsNumber.nan
  | _, JsNumber.nan => JsNumber.nan
  | JsNumber.posInf, JsNumber.negInf => JsNumber.nan
  | JsNumber.negInf, JsNumber.posInf => JsNumber.nan
  | JsNumber.posInf, _ => JsNumber.posInf
  | _, JsNumber.posInf => JsNumber.posInf
  | JsNumber.negInf, _ => JsNumber.negInf
  | _, JsNumber.negInf => JsNumber.negInf
  | JsNumber.finite a, JsNumber.finite b => JsNumber.finite (a + b)

/-- JavaScript (IEEE-754) multiplication on `JsNumber`: `NaN` propagates,
an infinity times zero is `NaN`, and an infinity times a nonzero value is
an infinity of the product's sign. -/
def jsMul : JsNumber → JsNumber → JsNumber
  | JsNumber.nan, _ => JsNumber.nan
  | _, JsNumber.nan => JsNumber.nan
  | JsNumber.posInf, JsNumber.posInf => JsNumber.posInf
  | JsNumber.posInf, JsNumber.negInf => JsNumber.negInf
  | JsNumber.negInf, JsNumber.posInf => JsNumber.negInf
  | JsNumber.negInf, JsNumber.negInf => JsNumber.posInf
  | JsNumber.posInf, JsNumber.finite b =>
    if b = 0 then JsNumber.nan
    else if 0 < b then JsNumber.posInf else JsNumber.negInf
  | JsNumber.finite a, JsNumber.posInf =>
    if a = 0 then JsNumber.nan
    else if 0 < a then JsNumber.posInf else JsNumber.negInf
  | JsNumber.negInf, JsNumber.finite b =>
    if b = 0 then JsNumber.nan
    else if 0 < b then JsNumber.negInf else JsNumber.posInf
  | JsNumber.finite a, JsNumber.negInf =>
    if a = 0 then JsNumber.nan
    else if 0 < a then JsNumber.negInf else JsNumber.posInf
  | JsNumber.finite a, JsNumber.finite b => JsNumber.finite (a * b)

/-- JavaScript (IEEE-754) division on `JsNumber`: `NaN` propagates, an
infinity over an infinity is `NaN`, a finite value over an infinity is
zero, `0 / 0` is `NaN`, and a nonzero finite value over zero is a signed
infinity (the conflated zero is treated as `+0`). -/
def jsDiv : JsNumber → JsNumber → JsNumber
  | JsNumber.nan, _ => JsNumber.nan
  | _, JsNumber.nan => JsNumber.nan
  | JsNumber.posInf, JsNumber.posInf => JsNumber.nan
  | JsNumber.posInf, JsNumber.negInf => JsNumber.nan
  | JsNumber.negInf, JsNumber.posInf => JsNumber.nan
  | JsNumber.negInf, JsNumber.negInf => JsNumber.nan
  | JsNumber.posInf, JsNumber.finite b =>
    if 0 ≤ b then JsNumber.posInf else JsNumber.negInf
  | JsNumber.negInf, JsNumber.finite b =>
    if 0 ≤ b then JsNumber.negInf else JsNumber.posInf
  | JsNumber.finite _, JsNumber.posInf => JsNumber.finite 0
  | JsNumber.finite _, JsNumber.negInf => JsNumber.finite 0
  | JsNumber.finite a, JsNumber.finite b =>
    if b = 0 then
      (if a = 0 then JsNumber.nan
       else if 0 < a then JsNumber.posInf else JsNumber.negInf)
    else JsNumber.finite (a / b)

/-- `calculateTax` from `schema-d1.ts`: the JavaScript expression
`amount * (rate / 100)`, computed over `JsNumber`. -/
def calculateTax (amount rate : JsNumber) : JsNumber :=
  jsMul amount (jsDiv rate (JsNumber.finite 100))

/-- `calculateAmountWithTax` from `schema-d1.ts`: the JavaScript
expression `amount + calculateTax(amount, rate)`, computed over
`JsNumber`. -/
def calculateAmountWithTax (amount rate : JsNumber) : JsNumber :=
  jsAdd amount (calculateTax amount rate)

/- ============================================================ -/
/- Ledger ingestion (spec section 4.1)                          -/
/- ============================================================ -/

/-- An external bank-sync record, with the shape given by the spec's
collaborator contract (section 6): `{internal_id, date, name, amount,
currency, method, bank_account_id}`.  A validated record carries an exact
rational amount. -/
structure TxRecord where
  internalId : String
  date : String
  name : String
  amount : ℚ
  currency : String
  method : String
  bankAccountId : Option String
  deriving DecidableEq, Repr

/-- A stored row of the `transactions` table, restricted to the fields the
ingestion contract touches.  `categorySlug` and `note` stand for the
user-set fields that a merge must preserve. -/
structure TxRow where
  teamId : String
  internalId : String
  date : String
  name : String
  amount : ℚ
  currency : String
  method : String
  bankAccountId : Option String
  categorySlug : Option String
  note : Option String
  deriving DecidableEq, Repr

/-- Whether a stored row has the ingestion idempotency key
`(team_id, internal_id)`. -/
def txKeyMatches (teamId internalId : String) (row : TxRow) : Bool :=
  row.teamId == teamId && row.internalId == internalId

/-- Two stored rows share an ingestion idempotency key. -/
def sameTxKey (a b : TxRow) : Prop :=
  a.teamId = b.teamId ∧ a.internalId = b.internalId

/-- The uniqueness invariant backed by the `transactions_internal_id_key`
unique index: no two distinct stored rows share a `(team_id, internal_id)`
key. -/
def uniqueInternalIdPerTeam (store : List TxRow) : Prop :=
  store.Pairwise (fun a b => ¬ sameTxKey a b)

/-- Number of stored rows carrying a given `(team_id, internal_id)` key. -/
def countTxKey (teamId internalId : String) (store : List TxRow) : ℕ :=
  store.countP (txKeyMatches teamId internalId)

/-- Diff-merge of an external record into an existing row: fields present
in the record overwrite the stored ones, the user-set fields are
preserved. -/
def mergeRow (r : TxRecord) (row : TxRow) : TxRow :=
  { row with
    date := r.date, name := r.name, amount := r.amount,
    currency := r.currency, method := r.method,
    bankAccountId := r.bankAccountId }

/-- A freshly inserted row for a record never seen before. -/
def newRow (teamId : String) (r : TxRecord) : TxRow :=
  { teamId := teamId, internalId := r.internalId, date := r.date,
    name := r.name, amount := r.amount, currency := r.currency,
    method := r.method, bankAccountId := r.bankAccountId,
    categorySlug := none, note := none }

/-- Merge the record into a row when the row carries the record's key,
leave the row alone otherwise. -/
def applyMerge (teamId : String) (r : TxRecord) (row : TxRow) : TxRow :=
  if txKeyMatches teamId r.internalId row then mergeRow r row else row

/-- Modelled from the spec: `ingestTransaction(teamId, externalRecord)` of
section 4.1 is not present in the source tree (only the `transactions`
table and its unique index are); the spec describes it as a transactional
upsert keyed by `(team_id, internal_id)` — a second ingestion of the same
external identifier is a diff-merge into the stored row, not a duplicate
insert. -/
def ingestTransaction (teamId : String) (r : TxRecord) (store : List TxRow) :
    List TxRow :=
  if store.any (txKeyMatches teamId r.internalId) then
    store.map (applyMerge teamId r)
  else
    newRow teamId r :: store

/- ============================================================ -/
/- Ingestion validation (spec sections 4.1 and 7)               -/
/- ============================================================ -/

/-- A raw external record, before validation: the amount is an arbitrary
JavaScript number. -/
structure RawTxRecord where
  internalId : String
  date : String
  name : String
  amount : JsNumber
  currency : String
  method : String
  bankAccountId : Option String
  deriving DecidableEq, Repr

/-- The error taxonomy entry exercised by ingestion validation. -/
inductive IngestError
  | validationError
  deriving DecidableEq, Repr

/-- Outcome of a checked ingestion: the error raised, if any, and the
resulting stored state. -/
structure IngestOutcome where
  error : Option IngestError
  store : List TxRow
  deriving DecidableEq, Repr

/-- Modelled from the spec: the validation step of `ingestTransaction`
(section 4.1) is not present in the source tree; the spec says ingestion
fails with `ValidationError` if the currency code is unsupported or the
amount is non-finite, rejecting the input before any write.  The
supported-currency test is `isSupportedCurrency` from `currency.ts`. -/
def ingestTransactionChecked (teamId : String) (r : RawTxRecord)
    (store : List TxRow) : IngestOutcome :=
  match r.amount with
  | JsNumber.finite q =>
    if isSupportedCurrency r.currency then
      { error := none
        store := ingestTransaction teamId
          { internalId := r.internalId, date := r.date, name := r.name,
            amount := q, currency := r.currency, method := r.method,
            bankAccountId := r.bankAccountId } store }
    else
      { error := some IngestError.validationError, store := store }
  | _ => { error := some IngestError.validationError, store := store }

/- ============================================================ -/
/- Invoice issuance (spec section 4.3)                          -/
/- ============================================================ -/

/-- A stored row of the `invoices` table, restricted to the fields the
numbering and token invariants concern. -/
structure Invoice where
  id : String
  teamId : String
  invoiceNumber : String
  token : String
  status : String
  deriving DecidableEq, Repr

/-- Invoice numbers are globally distinct, as the unique index
`invoices_invoice_number_key` enforces. -/
def invoiceNumbersUnique (l : List Invoice) : Prop :=
  l.Pairwise (fun a b => a.invoiceNumber ≠ b.invoiceNumber)

/-- No two invoices of one team share an invoice number. -/
def invoiceNumbersUniquePerTeam (l : List Invoice) : Prop :=
  l.Pairwise (fun a b => ¬ (a.teamId = b.teamId ∧ a.invoiceNumber = b.invoiceNumber))

/-- Invoice tokens are globally distinct, as the unique index
`invoices_token_key` enforces. -/
def invoiceTokensUnique (l : List Invoice) : Prop :=
  l.Pairwise (fun a b => a.token ≠ b.token)

/-- Insertion into the `invoices` table under its two unique indexes: the
insert is rejected (no row is written) when the new row collides on
`invoice_number` or on `token` with a stored row. -/
def insertInvoice (inv : Invoice) (l : List Invoice) : Option (List Invoice) :=
  if l.any (fun i => i.invoiceNumber == inv.invoiceNumber) then none
  else if l.any (fun i => i.token == inv.token) then none
  else some (inv :: l)

/-- The invoice-issuing state: each team's `invoice_sequence` counter
(column of the `teams` table, default 1) and the stored invoices. -/
structure LedgerState where
  seqs : List (String × ℕ)
  invoices : List Invoice
  deriving DecidableEq, Repr

/-- A team's current `invoice_sequence` value; the schema default is 1. -/
def teamSeq (s : LedgerState) (teamId : String) : ℕ :=
  match s.seqs.lookup teamId with
  | some n => n
  | none => 1

/-- The invoice row that issuance stores: its number is the decimal text
of the team's current `invoice_sequence` value. -/
def issuedInvoice (teamId id token : String) (s : LedgerState) : Invoice :=
  { id := id, teamId := teamId,
    invoiceNumber := toString (teamSeq s teamId),
    token := token, status := "unpaid" }

/-- Modelled from the spec: invoice issuance (section 4.3) is not present
in the source tree (only the `invoices` table, its unique indexes and the
`teams.invoice_sequence` column are); the spec allocates the invoice
number at the transition out of `draft` by atomically reading and
incrementing `Team.invoice_sequence`, then stores the invoice, which the
unique indexes of the `invoices` table guard. -/
def issueInvoice (teamId id token : String) (s : LedgerState) :
    Option LedgerState :=
  (insertInvoice (issuedInvoice teamId id token s) s.invoices).map (fun l =>
    { seqs := (teamId, teamSeq s teamId + 1) ::
        s.seqs.eraseP (fun p => p.1 == teamId)
      invoices := l })

/- ============================================================ -/
/- Invoice status values as a closed variant                    -/
/- ============================================================ -/

/-- The closed tagged variant corresponding to the TypeScript union type
`InvoiceStatus = typeof invoiceStatusValues[number]`: one constructor per
entry of `invoiceStatusValues`. -/
inductive InvoiceStatus
  | draft
  | overdue
  | paid
  | unpaid
  | canceled
  | scheduled
  deriving DecidableEq, Repr

/-- The stored text of each invoice status value. -/
def InvoiceStatus.toText : InvoiceStatus → String
  | InvoiceStatus.draft => "draft"
  | InvoiceStatus.overdue => "overdue"
  | InvoiceStatus.paid => "paid"
  | InvoiceStatus.unpaid => "unpaid"
  | InvoiceStatus.canceled => "canceled"
  | InvoiceStatus.scheduled => "scheduled"

/-- Enumeration of every invoice status, in the order of
`invoiceStatusValues`. -/
def InvoiceStatus.all : List InvoiceStatus :=
  [InvoiceStatus.draft, InvoiceStatus.overdue, InvoiceStatus.paid,
   InvoiceStatus.unpaid, InvoiceStatus.canceled, InvoiceStatus.scheduled]

/-- The set of invoice states named by the specification's lifecycle graph
(section 4.3), written out from the spec's words: `draft`, `scheduled`,
`sent`, `paid`, `overdue`, `canceled`.  Kept separate from
`invoiceStatusValues` so the two can be compared. -/
def specInvoiceLifecycleStates : List String :=
  ["draft", "scheduled", "sent", "paid", "overdue", "canceled"]

/-- The specification's storage requirement for monetary columns (section
4.1), written out from the spec's words: an exact decimal-equivalent
fixed-point representation, never binary floating point.  Of the SQLite
storage classes, REAL is IEEE-754 binary floating point, while INTEGER
(fixed-point minor units) and TEXT (decimal strings) are exact. -/
def specExactDecimalStorage : ColumnType → Bool
  | ColumnType.real => false
  | _ => true

/- ============================================================ -/
/- Inbox state machine (spec section 4.2)                       -/
/- ============================================================ -/

/-- The closed tagged variant corresponding to the TypeScript union type
`InboxStatus = typeof inboxStatusValues[number]`: one constructor per
entry of `inboxStatusValues`. -/
inductive InboxStatus
  | processing
  | pending
  | archived
  | new
  | analyzing
  | suggested_match
  | no_match
  | done
  | deleted
  deriving DecidableEq, Repr

/-- The stored text of each inbox status value. -/
def InboxStatus.toText : InboxStatus → String
  | InboxStatus.processing => "processing"
  | InboxStatus.pending => "pending"
  | InboxStatus.archived => "archived"
  | InboxStatus.new => "new"
  | InboxStatus.analyzing => "analyzing"
  | InboxStatus.suggested_match => "suggested_match"
  | InboxStatus.no_match => "no_match"
  | InboxStatus.done => "done"
  | InboxStatus.deleted => "deleted"

/-- Enumeration of every inbox status, in the order of
`inboxStatusValues`. -/
def InboxStatus.all : List InboxStatus :=
  [InboxStatus.processing, InboxStatus.pending, InboxStatus.archived,
   InboxStatus.new, InboxStatus.analyzing, InboxStatus.suggested_match,
   InboxStatus.no_match, InboxStatus.done, InboxStatus.deleted]

/-- The terminal inbox states: an item transitions through its state
machine until `done` or `deleted` (spec section 3). -/
def terminalInboxStatus : InboxStatus → Bool
  | InboxStatus.done => true
  | InboxStatus.deleted => true
  | _ => false

/-- Modelled from the spec: the inbox transition graph of section 4.2 is
not present in the source tree (only the `inbox` table and the status
value list are).  Allowed edges: `new → processing` and
`pending → processing` (ingestion accepted, `pending` being the alternate
entry for manual uploads), `processing → analyzing`,
`analyzing → suggested_match`, `analyzing → no_match`,
`analyzing → done` (auto-confirm links the transaction directly),
`{suggested_match, no_match} → done`, any state except `done`/`deleted`
to `archived` (explicit dismissal), and `deleted` from any non-terminal
state. -/
def inboxStep : InboxStatus → InboxStatus → Bool
  | InboxStatus.new, InboxStatus.processing => true
  | InboxStatus.pending, InboxStatus.processing => true
  | InboxStatus.processing, InboxStatus.analyzing => true
  | InboxStatus.analyzing, InboxStatus.suggested_match => true
  | InboxStatus.analyzing, InboxStatus.no_match => true
  | InboxStatus.analyzing, InboxStatus.done => true
  | InboxStatus.suggested_match, InboxStatus.done => true
  | InboxStatus.no_match, InboxStatus.done => true
  | InboxStatus.done, _ => false
  | InboxStatus.deleted, _ => false
  | _, InboxStatus.archived => true
  | _, InboxStatus.deleted => true
  | _, _ => false

/-- The inbox transition graph as a relation, for reachability. -/
def inboxStepRel (a b : InboxStatus) : Prop :=
  inboxStep a b = true

/-- An inbox item, restricted to the fields of the
`transaction_id`/status invariant. -/
structure InboxItem where
  status : InboxStatus
  transactionId : Option String
  deriving DecidableEq, Repr

/-- Modelled from the spec: the operations that mutate an inbox item
(section 4.2) are not present in the source tree.  Either the status moves
along an edge of the transition graph with the linked transaction left
untouched, or a suggestion is accepted (by the user from
`suggested_match`, or by auto-confirm from `analyzing`), which moves the
item to `done` and links `transaction_id`. -/
inductive InboxItemStep : InboxItem → InboxItem → Prop
  | move (it : InboxItem) (b : InboxStatus)
      (hstep : inboxStep it.status b = true) :
      InboxItemStep it { it with status := b }
  | confirmMatch (it : InboxItem) (txId : String)
      (hsrc : it.status = InboxStatus.suggested_match ∨
              it.status = InboxStatus.analyzing) :
      InboxItemStep it
        { status := InboxStatus.done, transactionId := some txId }

/-- The invariant of claim C8: the linked `transaction_id` is set only
when the item's status is `done`. -/
def inboxTxInvariant (it : InboxItem) : Prop :=
  it.transactionId.isSome → it.status = InboxStatus.done

/- ============================================================ -/
/- Reconciliation suggestions (spec sections 4.2 and 6)         -/
/- ============================================================ -/

/-- A stored row of the `transaction_match_suggestions` table, restricted
to the fields the claims concern; the score is embedded as an exact
rational. -/
structure MatchSuggestion where
  transactionId : String
  inboxId : String
  score : ℚ
  deriving DecidableEq, Repr

/-- The invariant of claim C7 on the stored suggestions: every score lies
in the closed interval from 0 to 1, and at most one suggestion exists per
`(transaction_id, inbox_id)` pair. -/
def suggestionInvariant (l : List MatchSuggestion) : Prop :=
  (∀ m ∈ l, 0 ≤ m.score ∧ m.score ≤ 1) ∧
  l.Pairwise (fun a b =>
    ¬ (a.transactionId = b.transactionId ∧ a.inboxId = b.inboxId))

/-- Modelled from the spec: the reconciliation engine's analysis pass
(section 4.2) is not present in the source tree (only the
`transaction_match_suggestions` table is).  Re-running analysis on an
inbox item recomputes its suggestions from scratch and replaces — never
appends to — the stored `MatchSuggestion` rows for that item: the rows of
other items are kept untouched, and one fresh row per scored candidate
transaction is stored. -/
def runAnalysis (inboxId : String) (scored : List (String × ℚ))
    (suggestions : List MatchSuggestion) : List MatchSuggestion :=
  scored.map (fun p =>
    { transactionId := p.1, inboxId := inboxId, score := p.2 }) ++
  suggestions.filter (fun m => m.inboxId != inboxId)

/- ============================================================ -/
/- Helper lemmas: ingestion                                     -/
/- ============================================================ -/

theorem txKeyMatches_iff (t k : String) (row : TxRow) :
    txKeyMatches t k row = true ↔ row.teamId = t ∧ row.internalId = k := by
  simp [txKeyMatches]

theorem txKeyMatches_mergeRow (t k : String) (r : TxRecord) (row : TxRow) :
    txKeyMatches t k (mergeRow r row) = txKeyMatches t k row := rfl

theorem mergeRow_idem (r : TxRecord) (row : TxRow) :
    mergeRow r (mergeRow r row) = mergeRow r row := rfl

theorem txKeyMatches_applyMerge (t k teamId : String) (r : TxRecord)
    (row : TxRow) :
    txKeyMatches t k (applyMerge teamId r row) = txKeyMatches t k row := by
  unfold applyMerge
  split <;> rfl

theorem applyMerge_teamId (teamId : String) (r : TxRecord) (row : TxRow) :
    (applyMerge teamId r row).teamId = row.teamId := by
  unfold applyMerge
  split <;> rfl

theorem applyMerge_internalId (teamId : String) (r : TxRecord) (row : TxRow) :
    (applyMerge teamId r row).internalId = row.internalId := by
  unfold applyMerge
  split <;> rfl

theorem applyMerge_idem (teamId : String) (r : TxRecord) (row : TxRow) :
    applyMerge teamId r (applyMerge teamId r row) = applyMerge teamId r row := by
  unfold applyMerge
  by_cases h : txKeyMatches teamId r.internalId row = true
  · simp [h, txKeyMatches_mergeRow, mergeRow_idem]
  · simp [h]

theorem map_applyMerge_key_count (t k teamId : String) (r : TxRecord)
    (l : List TxRow) :
    (l.map (applyMerge teamId r)).countP (txKeyMatches t k) =
      l.countP (txKeyMatches t k) := by
  induction l with
  | nil => rfl
  | cons a l ih => simp [List.countP_cons, ih, txKeyMatches_applyMerge]

theorem map_applyMerge_idem (teamId : String) (r : TxRecord) (l : List TxRow) :
    (l.map (applyMerge teamId r)).map (applyMerge teamId r) =
      l.map (applyMerge teamId r) := by
  induction l with
  | nil => rfl
  | cons a l ih => simp [ih, applyMerge_idem]

theorem map_applyMerge_of_no_key (teamId : String) (r : TxRecord)
    (l : List TxRow)
    (h : ∀ row ∈ l, txKeyMatches teamId r.internalId row = false) :
    l.map (applyMerge teamId r) = l := by
  induction l with
  | nil => rfl
  | cons a l ih =>
      have ha := h a (List.mem_cons_self a l)
      have ht := ih (fun row hr => h row (List.mem_cons_of_mem a hr))
      simp [applyMerge, ha, ht]

theorem countTxKey_le_one (t k : String) (store : List TxRow)
    (h : uniqueInternalIdPerTeam store) : countTxKey t k store ≤ 1 := by
  induction store with
  | nil => simp [countTxKey]
  | cons a l ih =>
      rw [uniqueInternalIdPerTeam, List.pairwise_cons] at h
      obtain ⟨ha, hl⟩ := h
      by_cases hk : txKeyMatches t k a = true
      · have hz : l.countP (txKeyMatches t k) = 0 := by
          rw [List.countP_eq_zero]
          intro b hb hbk
          obtain ⟨ha1, ha2⟩ := (txKeyMatches_iff t k a).mp hk
          obtain ⟨hb1, hb2⟩ := (txKeyMatches_iff t k b).mp hbk
          exact ha b hb ⟨ha1.trans hb1.symm, ha2.trans hb2.symm⟩
        simp [countTxKey, List.countP_cons, hk, hz]
      · have hle := ih hl
        rw [countTxKey] at hle ⊢
        rw [List.countP_cons]
        simp [hk]
        omega

theorem uniqueInternalIdPerTeam_map (teamId : String) (r : TxRecord)
    (store : List TxRow) (h : uniqueInternalIdPerTeam store) :
    uniqueInternalIdPerTeam (store.map (applyMerge teamId r)) := by
  rw [uniqueInternalIdPerTeam, List.pairwise_map]
  refine List.Pairwise.imp ?_ h
  intro a b hab hk
  apply hab
  obtain ⟨h1, h2⟩ := hk
  refine ⟨?_, ?_⟩
  · rwa [applyMerge_teamId, applyMerge_teamId] at h1
  · rwa [applyMerge_internalId, applyMerge_internalId] at h2

/- ============================================================ -/
/- C1: idempotent ingestion on (team_id, internal_id)           -/
/- ============================================================ -/

/-- **C1.** Ingesting a bank transaction is idempotent on the key
`(team_id, internal_id)`: starting from a store in which no two distinct
transactions of one team share an `internal_id` (the invariant backed by
the `transactions_internal_id_key` unique index), re-ingesting the same
record is a no-op, exactly one stored row carries the record's key, and
the uniqueness invariant still holds. -/
theorem ingestTransaction_idempotent_unique (teamId : String) (r : TxRecord)
    (store : List TxRow) (h : uniqueInternalIdPerTeam store) :
    ingestTransaction teamId r (ingestTransaction teamId r store) =
      ingestTransaction teamId r store ∧
    countTxKey teamId r.internalId (ingestTransaction teamId r store) = 1 ∧
    uniqueInternalIdPerTeam (ingestTransaction teamId r store) ∧
    transactionsTable.uniqueIndexes = [["internal_id"]] := by
  by_cases hany : store.any (txKeyMatches teamId r.internalId) = true
  · have hs1 : ingestTransaction teamId r store =
        store.map (applyMerge teamId r) := by
      simp only [ingestTransaction]
      rw [if_pos hany]
    have hany1 : (store.map (applyMerge teamId r)).any
        (txKeyMatches teamId r.internalId) = true := by
      rw [List.any_eq_true] at hany ⊢
      obtain ⟨row, hmem, hk⟩ := hany
      refine ⟨applyMerge teamId r row, List.mem_map_of_mem _ hmem, ?_⟩
      rw [txKeyMatches_applyMerge]
      exact hk
    refine ⟨?_, ?_, ?_, rfl⟩
    · rw [hs1]
      simp only [ingestTransaction]
      rw [if_pos hany1, map_applyMerge_idem]
    · rw [hs1, countTxKey, map_applyMerge_key_count]
      have hle := countTxKey_le_one teamId r.internalId store h
      have hge : 0 < store.countP (txKeyMatches teamId r.internalId) := by
        rw [List.countP_pos_iff]
        rw [List.any_eq_true] at hany
        obtain ⟨row, hmem, hk⟩ := hany
        exact ⟨row, hmem, hk⟩
      rw [countTxKey] at hle
      omega
    · rw [hs1]
      exact uniqueInternalIdPerTeam_map teamId r store h
  · have hnone : ∀ row ∈ store,
        txKeyMatches teamId r.internalId row = false := by
      intro row hmem
      by_contra hc
      apply hany
      rw [List.any_eq_true]
      refine ⟨row, hmem, ?_⟩
      revert hc
      cases txKeyMatches teamId r.internalId row <;> simp
    have hs1 : ingestTransaction teamId r store = newRow teamId r :: store := by
      simp only [ingestTransaction]
      rw [if_neg hany]
    have hkey_new : txKeyMatches teamId r.internalId (newRow teamId r) = true := by
      simp [txKeyMatches, newRow]
    refine ⟨?_, ?_, ?_, rfl⟩
    · rw [hs1]
      simp only [ingestTransaction]
      rw [if_pos (by
        rw [List.any_eq_true]
        exact ⟨newRow teamId r, List.mem_cons_self _ _, hkey_new⟩)]
      rw [List.map_cons]
      have h1 : applyMerge teamId r (newRow teamId r) = newRow teamId r := by
        simp only [applyMerge]
        rw [if_pos hkey_new]
        rfl
      rw [h1, map_applyMerge_of_no_key teamId r store hnone]
    · rw [hs1, countTxKey, List.countP_cons]
      have hz : store.countP (txKeyMatches teamId r.internalId) = 0 := by
        rw [List.countP_eq_zero]
        intro a ha
        rw [hnone a ha]
        simp
      rw [hz]
      simp [hkey_new]
    · rw [hs1, uniqueInternalIdPerTeam, List.pairwise_cons]
      refine ⟨?_, h⟩
      intro b hb hk
      obtain ⟨h1, h2⟩ := hk
      have hbk : txKeyMatches teamId r.internalId b = true := by
        rw [txKeyMatches_iff]
        exact ⟨h1.symm, h2.symm⟩
      rw [hnone b hb] at hbk
      cases hbk

/-- Witness for C1: ingesting a concrete record into the empty store
leaves exactly one row with its key. -/
theorem ingestTransaction_idempotent_unique_witness :
    countTxKey "team1" "tx1"
      (ingestTransaction "team1"
        { internalId := "tx1", date := "2024-01-10", name := "acme",
          amount := 100, currency := "USD", method := "payment",
          bankAccountId := none } []) = 1 :=
  (ingestTransaction_idempotent_unique "team1"
    { internalId := "tx1", date := "2024-01-10", name := "acme",
      amount := 100, currency := "USD", method := "payment",
      bankAccountId := none } []
    (by simp [uniqueInternalIdPerTeam])).2.1

/- ============================================================ -/
/- C2: invoice number and token uniqueness                      -/
/- ============================================================ -/

theorem insertInvoice_eq_some (inv : Invoice) (l l' : List Invoice)
    (h : insertInvoice inv l = some l') :
    l' = inv :: l ∧
    (∀ i ∈ l, i.invoiceNumber ≠ inv.invoiceNumber) ∧
    (∀ i ∈ l, i.token ≠ inv.token) := by
  unfold insertInvoice at h
  by_cases h1 : l.any (fun i => i.invoiceNumber == inv.invoiceNumber) = true
  · rw [if_pos h1] at h
    cases h
  · rw [if_neg h1] at h
    by_cases h2 : l.any (fun i => i.token == inv.token) = true
    · rw [if_pos h2] at h
      cases h
    · rw [if_neg h2] at h
      injection h with h
      refine ⟨h.symm, ?_, ?_⟩
      · intro i hi hco
        apply h1
        rw [List.any_eq_true]
        exact ⟨i, hi, by simp [hco]⟩
      · intro i hi hco
        apply h2
        rw [List.any_eq_true]
        exact ⟨i, hi, by simp [hco]⟩

/-- **C2.** Invoice issuance keeps invoice numbers unique: when the stored
invoices satisfy the two unique indexes of the `invoices` table
(`invoice_number` globally distinct, `token` globally distinct), a
successful issuance preserves both, hence no two invoices of one team
share a number; the stored number is allocated from the issuing team's
`invoice_sequence`, which the issuance increments. -/
theorem issueInvoice_numbering_unique (s : LedgerState)
    (teamId id token : String) (s' : LedgerState)
    (hnum : invoiceNumbersUnique s.invoices)
    (htok : invoiceTokensUnique s.invoices)
    (hiss : issueInvoice teamId id token s = some s') :
    invoiceNumbersUniquePerTeam s'.invoices ∧
    invoiceNumbersUnique s'.invoices ∧
    invoiceTokensUnique s'.invoices ∧
    (∃ inv ∈ s'.invoices, inv.teamId = teamId ∧
        inv.invoiceNumber = toString (teamSeq s teamId)) ∧
    teamSeq s' teamId = teamSeq s teamId + 1 ∧
    invoicesTable.uniqueIndexes = [["invoice_number"], ["token"]] := by
  unfold issueInvoice at hiss
  rw [Option.map_eq_some'] at hiss
  obtain ⟨l, hins, hs'⟩ := hiss
  obtain ⟨hl, hnums, htoks⟩ :=
    insertInvoice_eq_some (issuedInvoice teamId id token s) s.invoices l hins
  subst hs'
  subst hl
  refine ⟨?_, ?_, ?_, ?_, ?_, rfl⟩
  · rw [invoiceNumbersUniquePerTeam, List.pairwise_cons]
    constructor
    · intro b hb hk
      exact hnums b hb hk.2.symm
    · exact List.Pairwise.imp (fun hab hk => hab hk.2) hnum
  · rw [invoiceNumbersUnique, List.pairwise_cons]
    exact ⟨fun b hb hk => hnums b hb hk.symm, hnum⟩
  · rw [invoiceTokensUnique, List.pairwise_cons]
    exact ⟨fun b hb hk => htoks b hb hk.symm, htok⟩
  · exact ⟨issuedInvoice teamId id token s, List.mem_cons_self _ _, rfl, rfl⟩
  · simp [teamSeq, List.lookup]

/-- Witness for C2: issuing from the empty ledger stores the invoice
numbered from the team sequence and the per-team uniqueness holds. -/
theorem issueInvoice_numbering_unique_witness :
    invoiceNumbersUniquePerTeam
      [{ id := "id1", teamId := "t1", invoiceNumber := "1",
         token := "tok1", status := "unpaid" }] :=
  (issueInvoice_numbering_unique ⟨[], []⟩ "t1" "id1" "tok1"
    { seqs := [("t1", 2)]
      invoices := [{ id := "id1", teamId := "t1", invoiceNumber := "1",
                     token := "tok1", status := "unpaid" }] }
    (by simp [invoiceNumbersUnique])
    (by simp [invoiceTokensUnique])
    (by rfl)).1

/- ============================================================ -/
/- C3: the closed set of invoice status values                  -/
/- ============================================================ -/

/-- **C3, counterexample.** The claim identifies the closed set of invoice
status values with the lifecycle names `draft, scheduled, sent, paid,
overdue, canceled`; but the code's `invoiceStatusValues` has no `sent`
entry and has an `unpaid` entry that the lifecycle names lack, so the two
sets differ at the concrete values `"sent"` and `"unpaid"`. -/
theorem invoiceStatusValues_ne_lifecycle :
    "sent" ∈ specInvoiceLifecycleStates ∧
    "sent" ∉ invoiceStatusValues ∧
    "unpaid" ∈ invoiceStatusValues ∧
    "unpaid" ∉ specInvoiceLifecycleStates := by
  refine ⟨?_, ?_, ?_, ?_⟩ <;> decide

/-- **C3, amended.** The status of every invoice ranges over the closed
six-element set `draft, overdue, paid, unpaid, canceled, scheduled`
(`invoiceStatusValues`) — with `unpaid` in place of the claim's `sent` —
representable as the closed tagged variant `InvoiceStatus` whose
constructors enumerate exactly these values, with no duplicates and no
other value. -/
theorem invoiceStatus_closed_variant :
    InvoiceStatus.all.map InvoiceStatus.toText = invoiceStatusValues ∧
    invoiceStatusValues.Nodup ∧
    (∀ s : InvoiceStatus, s ∈ InvoiceStatus.all) := by
  refine ⟨rfl, by decide, fun s => ?_⟩
  cases s <;> decide

/- ============================================================ -/
/- C4: the inbox status state machine                           -/
/- ============================================================ -/

theorem inboxStep_done_false (b : InboxStatus) :
    inboxStep InboxStatus.done b = false := by
  cases b <;> rfl

/-- **C4.** The inbox states are exactly the nine values of the code's
`inboxStatusValues`, every transition follows the graph `inboxStep`
modelled from section 4.2 by construction, and `done` is terminal under
that graph: every state reachable from `done` is `done` itself — in
particular no transition sequence moves an item from `done` back to
`analyzing`. -/
theorem inboxStateMachine_done_terminal :
    InboxStatus.all.map InboxStatus.toText = inboxStatusValues ∧
    (∀ s : InboxStatus,
        Relation.ReflTransGen inboxStepRel InboxStatus.done s →
          s = InboxStatus.done) ∧
    ¬ Relation.ReflTransGen inboxStepRel InboxStatus.done
        InboxStatus.analyzing := by
  have hterm : ∀ s : InboxStatus,
      Relation.ReflTransGen inboxStepRel InboxStatus.done s →
        s = InboxStatus.done := by
    intro s h
    rcases h.cases_head with rfl | ⟨c, hc, -⟩
    · rfl
    · rw [inboxStepRel, inboxStep_done_false] at hc
      cases hc
  refine ⟨rfl, hterm, fun h => ?_⟩
  cases hterm _ h

/-- Witness for C4: the trivial transition sequence from `done` stays at
`done`. -/
theorem inboxStateMachine_done_terminal_witness :
    InboxStatus.done = InboxStatus.done :=
  inboxStateMachine_done_terminal.2.1 InboxStatus.done
    Relation.ReflTransGen.refl

/- ============================================================ -/
/- C5: storage class of monetary columns                        -/
/- ============================================================ -/

/-- **C5, counterexample.** The claim requires the stored `amount` and
`base_amount` of a transaction to be exact decimal-equivalent fixed-point
values, never binary floating point; but in the schema both columns are
declared `real(...)`, the SQLite binary floating-point storage class, so
the spec's exactness predicate evaluates to `false` on both. -/
theorem transactionAmount_not_exact_decimal :
    (transactionsTable.columnType "amount").map specExactDecimalStorage =
      some false ∧
    (transactionsTable.columnType "base_amount").map specExactDecimalStorage =
      some false := ⟨rfl, rfl⟩

/-- **C5, amended.** The stored `amount` and `base_amount` of every
transaction are SQLite REAL columns — binary floating point, not
fixed-point — paired with TEXT currency columns `currency` and
`base_currency`. -/
theorem transactionAmount_storage :
    transactionsTable.columnType "amount" = some ColumnType.real ∧
    transactionsTable.columnType "base_amount" = some ColumnType.real ∧
    transactionsTable.columnType "currency" = some ColumnType.text ∧
    transactionsTable.columnType "base_currency" = some ColumnType.text :=
  ⟨rfl, rfl, rfl, rfl⟩

/- ============================================================ -/
/- C6: ingestion validation                                     -/
/- ============================================================ -/

/-- **C6.** Checked ingestion raises `ValidationError` exactly when the
record's currency code is unsupported (per `isSupportedCurrency`) or its
amount is non-finite, and whenever it raises the error the stored state is
unchanged — the input is rejected before any write. -/
theorem ingestTransactionChecked_validation (teamId : String)
    (r : RawTxRecord) (store : List TxRow) :
    ((ingestTransactionChecked teamId r store).error =
        some IngestError.validationError ↔
      (isSupportedCurrency r.currency = false ∨
        r.amount.isFinite = false)) ∧
    ((isSupportedCurrency r.currency = false ∨ r.amount.isFinite = false) →
      (ingestTransactionChecked teamId r store).store = store) := by
  cases hr : r.amount <;>
    by_cases hc : isSupportedCurrency r.currency = true <;>
      simp [ingestTransactionChecked, hr, hc, JsNumber.isFinite,
        Bool.not_eq_true]

/-- Witness for C6: a concrete record with lowercase currency code is
rejected with `ValidationError` and the empty store is left unchanged. -/
theorem ingestTransactionChecked_validation_witness :
    (ingestTransactionChecked "t1"
      { internalId := "i1", date := "2024-01-10", name := "acme",
        amount := JsNumber.finite 100, currency := "usd",
        method := "payment", bankAccountId := none } []).store = [] :=
  (ingestTransactionChecked_validation "t1"
    { internalId := "i1", date := "2024-01-10", name := "acme",
      amount := JsNumber.finite 100, currency := "usd",
      method := "payment", bankAccountId := none } []).2
    (Or.inl (by decide))

/- ============================================================ -/
/- C7: match suggestion invariants and replacement              -/
/- ============================================================ -/

theorem runAnalysis_fresh_filter (inboxId : String)
    (scored : List (String × ℚ)) :
    (scored.map (fun p =>
      ({ transactionId := p.1, inboxId := inboxId, score := p.2 } :
        MatchSuggestion))).filter (fun m => m.inboxId != inboxId) = [] := by
  induction scored with
  | nil => rfl
  | cons q l ih => simp [List.filter_cons, ih]

theorem filter_self_idem {α : Type} (p : α → Bool) (l : List α) :
    (l.filter p).filter p = l.filter p := by
  induction l with
  | nil => rfl
  | cons a l ih =>
      by_cases h : p a = true
      · simp [List.filter_cons, h, ih]
      · simp [List.filter_cons, h, ih]

/-- **C7.** When the similarity provider honours its contract (each
candidate scored in the closed interval from 0 to 1) and scores each
candidate transaction once, re-running analysis on an inbox item keeps the
suggestion invariant — every stored score lies in that interval and at
most one suggestion exists per `(transaction_id, inbox_id)` pair — and is
idempotent: running it again replaces rather than appends, leaving the
stored suggestions unchanged. -/
theorem runAnalysis_invariant_idempotent (inboxId : String)
    (scored : List (String × ℚ)) (suggestions : List MatchSuggestion)
    (hscore : ∀ p ∈ scored, 0 ≤ p.2 ∧ p.2 ≤ 1)
    (hkeys : (scored.map Prod.fst).Nodup)
    (hinv : suggestionInvariant suggestions) :
    suggestionInvariant (runAnalysis inboxId scored suggestions) ∧
    runAnalysis inboxId scored (runAnalysis inboxId scored suggestions) =
      runAnalysis inboxId scored suggestions := by
  obtain ⟨hsc, hpw⟩ := hinv
  refine ⟨⟨?_, ?_⟩, ?_⟩
  · intro m hm
    rw [runAnalysis, List.mem_append] at hm
    rcases hm with hm | hm
    · rw [List.mem_map] at hm
      obtain ⟨p, hp, hpm⟩ := hm
      rw [← hpm]
      exact hscore p hp
    · rw [List.mem_filter] at hm
      exact hsc m hm.1
  · rw [runAnalysis, List.pairwise_append]
    refine ⟨?_, ?_, ?_⟩
    · rw [List.pairwise_map]
      have hkp : scored.Pairwise (fun p q => p.1 ≠ q.1) := by
        rw [← List.pairwise_map (f := Prod.fst)]
        exact hkeys
      exact List.Pairwise.imp (fun hab hk => hab hk.1) hkp
    · exact List.Pairwise.sublist (List.filter_sublist _) hpw
    · intro a ha b hb hk
      rw [List.mem_map] at ha
      obtain ⟨p, hp, hpa⟩ := ha
      rw [List.mem_filter] at hb
      have hbne : b.inboxId ≠ inboxId := by
        simpa [bne_iff_ne] using hb.2
      apply hbne
      rw [← hk.2, ← hpa]
  · rw [runAnalysis, runAnalysis, List.filter_append,
      runAnalysis_fresh_filter, filter_self_idem, List.nil_append]

/-- Witness for C7: a concrete analysis run over one candidate scored 1
is idempotent. -/
theorem runAnalysis_invariant_idempotent_witness :
    runAnalysis "in1" [("tx1", (1 : ℚ))]
        (runAnalysis "in1" [("tx1", (1 : ℚ))] []) =
      runAnalysis "in1" [("tx1", (1 : ℚ))] [] :=
  (runAnalysis_invariant_idempotent "in1" [("tx1", (1 : ℚ))] []
    (by simp) (by simp)
    ⟨fun m hm => absurd hm (List.not_mem_nil m), List.Pairwise.nil⟩).2

/- ============================================================ -/
/- C8: transaction_id is linked only in state done              -/
/- ============================================================ -/

/-- **C8.** Along every sequence of inbox-item operations, the invariant
that `transaction_id` is set only when the status is `done` is preserved:
any reachable item whose status is not `done` has `transaction_id`
unset. -/
theorem inboxTransactionId_only_done (it it' : InboxItem)
    (hinv : inboxTxInvariant it)
    (hreach : Relation.ReflTransGen InboxItemStep it it') :
    inboxTxInvariant it' ∧
    (it'.status ≠ InboxStatus.done → it'.transactionId = none) := by
  have key : inboxTxInvariant it' := by
    induction hreach with
    | refl => exact hinv
    | tail hab hbc ih =>
        cases hbc with
        | move st hstep =>
            intro hsome
            have h2 := ih hsome
            rw [h2, inboxStep_done_false] at hstep
            cases hstep
        | confirmMatch txId hsrc =>
            intro _
            rfl
  refine ⟨key, fun hne => ?_⟩
  cases hopt : it'.transactionId with
  | none => rfl
  | some t =>
      exact absurd (key (by rw [hopt]; rfl)) hne

/-- Witness for C8: a freshly created item in state `new` has no linked
transaction. -/
theorem inboxTransactionId_only_done_witness :
    ({ status := InboxStatus.new, transactionId := none } :
        InboxItem).transactionId = none :=
  (inboxTransactionId_only_done
    { status := InboxStatus.new, transactionId := none }
    { status := InboxStatus.new, transactionId := none }
    (by intro h; cases h) Relation.ReflTransGen.refl).2 (by decide)

/- ============================================================ -/
/- C9: the tax helpers                                          -/
/- ============================================================ -/

/-- **C9, counterexample.** The claim asserts its identities for all
numbers, in particular that a zero rate is an identity; but `Infinity` is
a JavaScript number, and `calculateAmountWithTax(Infinity, 0)` evaluates
to `NaN`, not `Infinity`: `Infinity * (0 / 100)` is `Infinity * 0 = NaN`
and `Infinity + NaN` is `NaN`.  The whole computation uses only IEEE-754
special-value rules, which `jsMul`/`jsAdd` follow exactly — no rounding is
involved. -/
theorem calculateAmountWithTax_zero_rate_counterexample :
    calculateAmountWithTax JsNumber.posInf (JsNumber.finite 0) =
      JsNumber.nan ∧
    JsNumber.nan ≠ JsNumber.posInf := by
  constructor
  · have h100 : (100 : ℚ) ≠ 0 := by norm_num
    simp [calculateAmountWithTax, calculateTax, jsDiv, jsMul, jsAdd, h100,
      zero_div]
  · decide

/-- **C9, amended.** `calculateAmountWithTax` is the sum of the amount and
`calculateTax` for every JavaScript number — the structural identity of
the code — and a zero rate is an identity on every finite amount (the
`rate = 0` computation only multiplies by and adds exact zeros, on which
binary64 arithmetic is itself exact).  The distributed form
`amount * (1 + rate / 100)` holds of the exact real values but not of the
program's binary64 results (they can differ in the last ulp at finite
inputs), and the zero-rate identity fails at non-finite amounts, so
neither is asserted. -/
theorem calculateAmountWithTax_eq (amount rate : JsNumber) :
    calculateAmountWithTax amount rate =
      jsAdd amount (calculateTax amount rate) ∧
    (∀ q : ℚ, calculateAmountWithTax (JsNumber.finite q)
        (JsNumber.finite 0) = JsNumber.finite q) := by
  refine ⟨rfl, fun q => ?_⟩
  have h100 : (100 : ℚ) ≠ 0 := by norm_num
  simp [calculateAmountWithTax, calculateTax, jsDiv, jsMul, jsAdd, h100,
    zero_div]

/- ============================================================ -/
/- C10: the supported-currency predicate                        -/
/- ============================================================ -/

/-- **C10.** `isSupportedCurrency` holds exactly on the ten codes of the
`currencies` list, under case-sensitive comparison; in particular the
lowercase `"usd"` is rejected. -/
theorem isSupportedCurrency_iff :
    (∀ c : String, isSupportedCurrency c = true ↔
      (c = "USD" ∨ c = "EUR" ∨ c = "GBP" ∨ c = "JPY" ∨ c = "AUD" ∨
       c = "CAD" ∨ c = "CHF" ∨ c = "CNY" ∨ c = "SEK" ∨ c = "NZD")) ∧
    isSupportedCurrency "usd" = false := by
  constructor
  · intro c
    constructor
    · intro h
      have hm : c ∈ currencies := by
        simpa [isSupportedCurrency] using h
      simpa [currencies] using hm
    · intro h
      have hm : c ∈ currencies := by
        simp [currencies]
        exact h
      simpa [isSupportedCurrency] using hm
  · decide
